import Mathlib

/-!
Shallow embedding of the fleyg repository (two Rust binaries built on libp2p:
src/src/bin/fleyg.rs and src/src/bin/ident.rs), together with theorems
settling the specification claims about it.

The embedding models, faithfully to the source:
  * the Kademlia configuration built in fleyg.rs (query timeout, record
    filtering mode),
  * the bootstrap list and the startup sequence of fleyg main (bootstrap
    address insertion, listening, optional dialing), including propagation
    of parse failures via the Rust question-mark operator,
  * the event-dispatch loop of fleyg main as a step function on node state
    over the event alphabet matched by the source, and
  * the event loop of ident.rs.

Library behaviour that lives in libp2p rather than in this repository
(the meaning of the record-filtering mode, the shape of query results) is
modelled from the specification, as marked on the individual definitions.
-/

namespace Fleyg

/-- Peer identifiers are opaque strings in this embedding (the source treats
them as parsed opaque values; the bootstrap list is given as base58 strings). -/
abbrev PeerId := String

/-- Multiaddresses are opaque strings in this embedding. -/
abbrev Multiaddr := String

/-- Record keys are byte strings. -/
abbrev Key := List Nat

/-- Record values are byte strings. -/
abbrev Value := List Nat

/-- A DHT record: key and value byte strings
(fleyg.rs accesses rec.key and rec.value). -/
structure Record where
  key : Key
  value : Value
deriving DecidableEq, Repr

/-- The libp2p KademliaStoreInserts enum: the record-filtering modes that
can be selected with KademliaConfig::set_record_filtering. -/
inductive KademliaStoreInserts where
  | Unfiltered
  | FilterBoth
deriving DecidableEq, Repr

/-- The provenance of a record put: locally authored or relayed from a
remote peer. -/
inductive RecordSource where
  | locallyAuthored
  | fromRemote (peer : PeerId)
deriving DecidableEq, Repr

/-- Modelled from the spec: which record sources a store-inserts mode
subjects to the Record Store admission filter. The spec states that under
the filtered policy all puts, whether locally authored or relayed from a
remote peer, pass through the same filter, while the lax variant stores
without filtering. The libp2p internals realising this are not part of
this repository. -/
def KademliaStoreInserts.appliesFilterTo : KademliaStoreInserts → RecordSource → Bool
  | .Unfiltered, _ => false
  | .FilterBoth, _ => true

/-- The slice of the libp2p KademliaConfig that fleyg.rs sets explicitly. -/
structure KademliaConfig where
  queryTimeoutSecs : Nat
  recordFiltering : KademliaStoreInserts
deriving DecidableEq, Repr

/-- The Kademlia configuration built in fleyg.rs main:
cfg.set_query_timeout(Duration::from_secs(5 * 60));
cfg.set_record_filtering(KademliaStoreInserts::FilterBoth). -/
def fleygKademliaConfig : KademliaConfig :=
  { queryTimeoutSecs := 5 * 60
    recordFiltering := .FilterBoth }

/-- The BOOTNODES constant of fleyg.rs. -/
def BOOTNODES : List String :=
  ["QmNnooDu7bfjPFoTZYxMNLWUQJyrVwtbZg5gBMjTezGAJN",
   "QmQCU2EcMqAqQPR2i9bChDtGNJchTbq5TbXJJ16u19uLTa",
   "QmbLHAnMoJPWSCR5Zhtx6BHJX9KiKNN6tpvbUcqanj75Nb",
   "QmcZf59bWwK5XFi76CZX8cbJ4BhTzzA3gU1ZjYZcYW3dwt"]

/-- The multiaddress string passed to add_address for every bootstrap peer
in fleyg.rs. -/
def bootstrapAddr : Multiaddr := "/dnsaddr/bootstrap.libp2p.io"

/-- The listen address string passed to listen_on in fleyg.rs. -/
def listenAddrStr : Multiaddr := "/ip4/0.0.0.0/tcp/4920"

end Fleyg

namespace Fleyg

/-- The libp2p MemoryStore restricted to records: a key-to-record map,
held as an association list. -/
structure MemoryStore where
  records : List (Key × Record)
deriving DecidableEq, Repr

/-- Pure local lookup in the record store (serves local gets). -/
def MemoryStore.get (s : MemoryStore) (k : Key) : Option Record :=
  (s.records.find? (fun p => p.fst == k)).map Prod.snd

/-- The empty record store (MemoryStore::new starts empty). -/
def MemoryStore.empty : MemoryStore := { records := [] }

/-- Modelled from the spec: the Record Store admission filter accepts a
record when its key and value sizes are within fixed maxima (the spec
rejects a put when the value exceeds the maximum size or the key is
malformed, i.e. out of bounds). The filter logic itself is library code,
not part of this repository. -/
def specFilterAccepts (maxKeyLen maxValLen : Nat) (r : Record) : Bool :=
  decide (r.key.length ≤ maxKeyLen) && decide (r.value.length ≤ maxValLen)

/-- Identity-exchange payload as used by both binaries: protocol version,
agent version, the address at which the peer observed the sender, and
supported protocols. -/
structure IdInfo where
  protocolVersion : String
  agentVersion : String
  observedAddr : Multiaddr
  protocols : List String
deriving DecidableEq, Repr

/-- The libp2p identify events matched by the source. -/
inductive IdentifyEvent where
  | received (peerId : PeerId) (info : IdInfo)
  | sent (peerId : PeerId)
  | pushed (peerId : PeerId) (info : IdInfo)
  | error (peerId : PeerId) (err : String)
deriving DecidableEq, Repr

/-- Successful result payload of a GetClosestPeers query (ok.peers). -/
structure GetClosestPeersOk where
  peers : List PeerId
deriving DecidableEq, Repr

/-- The GetClosestPeersError::Timeout payload: the best-known candidate
peers accumulated before the deadline elapsed (modelled from the spec,
which states the timeout result carries the best-known candidate set). -/
structure GetClosestPeersTimeout where
  peers : List PeerId
deriving DecidableEq, Repr

/-- Result of a GetClosestPeers query as delivered to the loop:
Ok(ok) or Err(GetClosestPeersError::Timeout). -/
inductive GetClosestPeersResult where
  | ok (okRes : GetClosestPeersOk)
  | timeoutErr (errRes : GetClosestPeersTimeout)
deriving DecidableEq, Repr

/-- The query results matched by fleyg.rs: GetClosestPeers, and a
catch-all for every other query result kind (the wildcard arm). -/
inductive QueryResult where
  | getClosestPeers (result : GetClosestPeersResult)
  | otherQuery
deriving DecidableEq, Repr

/-- The Kademlia inbound requests matched by fleyg.rs. Under FilterBoth
the PutRecord event carries the record for the application to inspect. -/
inductive InboundRequest where
  | findNode
  | getProvider
  | addProvider
  | getRecord
  | putRecord (record : Option Record)
deriving DecidableEq, Repr

/-- The Kademlia events matched by fleyg.rs. -/
inductive KademliaEvent where
  | inboundRequest (request : InboundRequest)
  | outboundQueryProgressed (result : QueryResult)
  | routingUpdated
  | unroutablePeer
  | routablePeer
  | pendingRoutablePeer
deriving DecidableEq, Repr

/-- Outcome of one liveness (ping) round-trip with a peer. -/
inductive PingResult where
  | success
  | failure
deriving DecidableEq, Repr

/-- A ping event: the peer probed and the round-trip outcome. fleyg.rs
matches every ping event with the wildcard Ping(_). -/
structure PingEvent where
  peer : PeerId
  result : PingResult
deriving DecidableEq, Repr

/-- The combined behaviour events of fleyg.rs (derive(NetworkBehaviour)
on ping, identify and kademlia). -/
inductive FleygBehaviorEvent where
  | ping (e : PingEvent)
  | identify (e : IdentifyEvent)
  | kademlia (e : KademliaEvent)
deriving DecidableEq, Repr

/-- The swarm events reaching the fleyg loop. Behaviour events are matched
by kind; every other swarm event, transport failures included, falls into
the wildcard arm of the source match. -/
inductive SwarmEvent where
  | behaviour (e : FleygBehaviorEvent)
  | listenerError
  | listenerClosed
  | outgoingConnectionError
  | incomingConnectionError
  | connectionEstablished (peer : PeerId)
  | connectionClosed (peer : PeerId)
  | newListenAddr (addr : Multiaddr)
  | dialing (peer : PeerId)
deriving DecidableEq, Repr

/-- Whether the loop stays in the loop (cont) or leaves it (halt, the Rust
break statement). -/
inductive LoopControl where
  | cont
  | halt
deriving DecidableEq, Repr

/-- The mutable node state visible to the loop handlers: the record store,
the Kademlia routing table (as the set of peers it holds), and the
node's recorded candidate external addresses. -/
structure NodeState where
  store : MemoryStore
  routingTable : List PeerId
  externalAddrs : List Multiaddr
deriving DecidableEq, Repr

/-- Outbound actions a handler could emit back to the transport boundary. -/
inductive OutboundAction where
  | dialPeer (peer : PeerId)
  | closeConnection (peer : PeerId)
  | addExternalAddress (addr : Multiaddr)
  | sendResponse (peer : PeerId)
deriving DecidableEq, Repr

/-- Result of dispatching one event: successor state, log lines emitted,
outbound actions emitted, and whether the loop continues. -/
structure StepResult where
  state : NodeState
  logs : List String
  actions : List OutboundAction
  control : LoopControl
deriving DecidableEq, Repr

/-- Lower-case hex digit. -/
def hexDigit (n : Nat) : Char :=
  if n < 10 then Char.ofNat (48 + n) else Char.ofNat (87 + n)

/-- Two-digit lower-case hex encoding of one byte. -/
def hexByte (b : Nat) : String :=
  String.mk [hexDigit (b / 16 % 16), hexDigit (b % 16)]

/-- hex::encode of a byte string. -/
def hexEncode (bs : List Nat) : String :=
  String.join (bs.map hexByte)

/-- The log line of the fleyg PutRecord arm:
info!("Put: {} -> {}", hex::encode(key), hex::encode(value)). -/
def putLogLine (r : Record) : String :=
  "Put: " ++ hexEncode r.key ++ " -> " ++ hexEncode r.value

/-- The fleyg InboundRequest::PutRecord arm: if the event carries a record
it is logged; the handler stores nothing and emits nothing. -/
def handlePutRecord (store : MemoryStore) (record : Option Record) :
    MemoryStore × List String :=
  match record with
  | some rec => (store, [putLogLine rec])
  | none => (store, [])

/-- The log lines of the fleyg IdentifyEvent::Received arm. -/
def identifyReceivedLogs (peerId : PeerId) (info : IdInfo) : List String :=
  ["Identify Received: " ++ peerId,
   "\tProtocol: " ++ info.protocolVersion,
   "\tAgent: " ++ info.agentVersion,
   "\tObserved Addr: " ++ info.observedAddr,
   "\tProtocols:"]
  ++ info.protocols.map (fun sp => "\t\t" ++ sp)

/-- The log lines of the fleyg IdentifyEvent::Pushed arm. -/
def identifyPushedLogs (peerId : PeerId) (info : IdInfo) : List String :=
  ("Pushed to: " ++ peerId) :: info.protocols.map (fun p => "\t" ++ p)

/-- The log line printed for each peer of a GetClosestPeers result. -/
def closestPeerLog (p : PeerId) : String :=
  "Closest peer: " ++ p

/-- The fleyg QueryResult::GetClosestPeers arms: on Ok print every peer and
break; on Err(Timeout) print the timeout notice, print every accumulated
peer, and break. -/
def handleGetClosestPeers (res : GetClosestPeersResult) :
    List String × LoopControl :=
  match res with
  | .ok okRes => (okRes.peers.map closestPeerLog, .halt)
  | .timeoutErr t => ("Query timed out..." :: t.peers.map closestPeerLog, .halt)

/-- One iteration of the fleyg event-dispatch loop (the match statement of
fleyg.rs main, lines 111-218), as a function from state and event to the
dispatch outcome. Every arm of the source match is represented; arms whose
body is empty leave the state unchanged and continue. -/
def fleygStep (st : NodeState) (e : SwarmEvent) : StepResult :=
  match e with
  | .behaviour be =>
    match be with
    | .ping _ => ⟨st, [], [], .cont⟩
    | .identify ie =>
      match ie with
      | .received peerId info => ⟨st, identifyReceivedLogs peerId info, [], .cont⟩
      | .sent _ => ⟨st, [], [], .cont⟩
      | .pushed peerId info => ⟨st, identifyPushedLogs peerId info, [], .cont⟩
      | .error _ _ => ⟨st, [], [], .cont⟩
    | .kademlia ke =>
      match ke with
      | .inboundRequest req =>
        match req with
        | .findNode => ⟨st, [], [], .cont⟩
        | .getProvider => ⟨st, [], [], .cont⟩
        | .addProvider => ⟨st, [], [], .cont⟩
        | .getRecord => ⟨st, [], [], .cont⟩
        | .putRecord record =>
          let r := handlePutRecord st.store record
          ⟨{ st with store := r.fst }, r.snd, [], .cont⟩
      | .outboundQueryProgressed qr =>
        match qr with
        | .getClosestPeers res =>
          let r := handleGetClosestPeers res
          ⟨st, r.fst, [], r.snd⟩
        | .otherQuery => ⟨st, [], [], .cont⟩
      | .routingUpdated => ⟨st, [], [], .cont⟩
      | .unroutablePeer => ⟨st, [], [], .cont⟩
      | .routablePeer => ⟨st, [], [], .cont⟩
      | .pendingRoutablePeer => ⟨st, [], [], .cont⟩
  | .listenerError => ⟨st, [], [], .cont⟩
  | .listenerClosed => ⟨st, [], [], .cont⟩
  | .outgoingConnectionError => ⟨st, [], [], .cont⟩
  | .incomingConnectionError => ⟨st, [], [], .cont⟩
  | .connectionEstablished _ => ⟨st, [], [], .cont⟩
  | .connectionClosed _ => ⟨st, [], [], .cont⟩
  | .newListenAddr _ => ⟨st, [], [], .cont⟩
  | .dialing _ => ⟨st, [], [], .cont⟩

/-- Run the fleyg loop over a finite event prefix, accumulating the emitted
outbound actions and stopping early when an iteration breaks. -/
def fleygRun : NodeState → List SwarmEvent → NodeState × List OutboundAction
  | st, [] => (st, [])
  | st, e :: es =>
    let r := fleygStep st e
    match r.control with
    | .halt => (r.state, r.actions)
    | .cont =>
      let rest := fleygRun r.state es
      (rest.fst, r.actions ++ rest.snd)

/-- The event kinds the spec allows to terminate the loop: there is no
shutdown-request event in the alphabet the source matches on, and these are
the unrecoverable transport-failure events. -/
def isTransportFailure : SwarmEvent → Bool
  | .listenerError => true
  | .listenerClosed => true
  | .outgoingConnectionError => true
  | _ => false

/-- The event kinds that actually carry a completed GetClosestPeers query
result (success or timeout). -/
def isClosestPeersResult : SwarmEvent → Bool
  | .behaviour (.kademlia (.outboundQueryProgressed (.getClosestPeers _))) => true
  | _ => false

/-- The node state at loop entry: MemoryStore::new is empty, and no
external addresses have been recorded. -/
def initialNodeState : NodeState :=
  { store := MemoryStore.empty, routingTable := [], externalAddrs := [] }

/-- A swarm event reporting one failed (unanswered) liveness probe of a
peer. -/
def pingFailureEvt (p : PeerId) : SwarmEvent :=
  .behaviour (.ping { peer := p, result := .failure })

/-- The swarm event carrying an inbound put-record request for a record. -/
def putRecordEvt (r : Record) : SwarmEvent :=
  .behaviour (.kademlia (.inboundRequest (.putRecord (some r))))

/-- The swarm event carrying a successful GetClosestPeers result. -/
def closestPeersOkEvt (peers : List PeerId) : SwarmEvent :=
  .behaviour (.kademlia (.outboundQueryProgressed
    (.getClosestPeers (.ok { peers := peers }))))

/-- The swarm event carrying a timed-out GetClosestPeers result holding the
best-known candidate peers accumulated before the deadline. -/
def closestPeersTimeoutEvt (peers : List PeerId) : SwarmEvent :=
  .behaviour (.kademlia (.outboundQueryProgressed
    (.getClosestPeers (.timeoutErr { peers := peers }))))

/-- A concrete identify payload used as counterexample input. -/
def sampleIdInfo : IdInfo :=
  { protocolVersion := "ipfs/0.1.0"
    agentVersion := "fleyg/0.0.1"
    observedAddr := "/ip4/1.2.3.4/tcp/4920"
    protocols := ["/ipfs/id/1.0.0"] }

/-- The setup actions fleyg main performs between swarm construction and
the event loop. -/
inductive SetupAction where
  | addAddress (peer : String) (addr : Multiaddr)
  | listenOn (addr : Multiaddr)
  | setServerMode
  | dialPeer (peer : String)
deriving DecidableEq, Repr

/-- The sequence of setup actions of fleyg main in program order: during
swarm construction every bootstrap peer's address is added to the Kademlia
routing table; then the node listens and switches to server mode; only
after that, and only when the dial flag is set, each bootstrap peer is
dialed. Log-only statements are omitted from the trace. -/
def mainSetupTrace (dial : Bool) : List SetupAction :=
  BOOTNODES.map (fun p => SetupAction.addAddress p bootstrapAddr)
  ++ [SetupAction.listenOn listenAddrStr, SetupAction.setServerMode]
  ++ (if dial then BOOTNODES.map SetupAction.dialPeer else [])

/-- Whether a setup action adds a bootstrap address to the routing table. -/
def SetupAction.isAddAddress : SetupAction → Bool
  | .addAddress _ _ => true
  | _ => false

/-- Whether a setup action dials a peer. -/
def SetupAction.isDialCall : SetupAction → Bool
  | .dialPeer _ => true
  | _ => false

/-- Startup configuration errors: the error values that the question-mark
operators of fleyg main propagate to the caller before the loop. -/
inductive ConfigError where
  | invalidPeerId (s : String)
  | invalidMultiaddr (s : String)
deriving DecidableEq, Repr

/-- The bootstrap-insertion loop of fleyg main,
behavior.add_address(&peer.parse()?, "/dnsaddr/bootstrap.libp2p.io".parse()?):
for each peer string the peer id is parsed, then the bootstrap address; the
first parse failure aborts main with that error. -/
def addBootAddresses (parsePeer : String → Option PeerId)
    (parseAddr : String → Option Multiaddr) :
    List String → Except ConfigError (List (PeerId × Multiaddr))
  | [] => .ok []
  | p :: rest =>
    match parsePeer p with
    | none => .error (.invalidPeerId p)
    | some pid =>
      match parseAddr bootstrapAddr with
      | none => .error (.invalidMultiaddr bootstrapAddr)
      | some a =>
        match addBootAddresses parsePeer parseAddr rest with
        | .error e => .error e
        | .ok tail => .ok ((pid, a) :: tail)

/-- The dialing loop of fleyg main (let pid: PeerId = peer.parse()?;
swarm.dial(pid)?): each bootstrap peer string is parsed again; the first
failure aborts main with that error. -/
def parseDialPeers (parsePeer : String → Option PeerId) :
    List String → Except ConfigError (List PeerId)
  | [] => .ok []
  | p :: rest =>
    match parsePeer p with
    | none => .error (.invalidPeerId p)
    | some pid =>
      match parseDialPeers parsePeer rest with
      | .error e => .error e
      | .ok tail => .ok (pid :: tail)

/-- The fallible startup of fleyg main before the event loop: bootstrap
addresses are added, the listen address is parsed for listen_on, and when
the dial flag is set each bootstrap peer is parsed for dialing; the first
parse failure aborts startup with that configuration error. -/
def startup (parsePeer : String → Option PeerId)
    (parseAddr : String → Option Multiaddr) (dial : Bool) :
    Except ConfigError (List (PeerId × Multiaddr) × Multiaddr × List PeerId) :=
  match addBootAddresses parsePeer parseAddr BOOTNODES with
  | .error e => .error e
  | .ok added =>
    match parseAddr listenAddrStr with
    | none => .error (.invalidMultiaddr listenAddrStr)
    | some la =>
      if dial then
        match parseDialPeers parsePeer BOOTNODES with
        | .error e => .error e
        | .ok pids => .ok (added, la, pids)
      else .ok (added, la, [])

/-- fleyg main end to end over a finite event prefix: a startup error is
returned to the caller and the event loop never runs; otherwise the loop
runs over the events. -/
def runMain (parsePeer : String → Option PeerId)
    (parseAddr : String → Option Multiaddr) (dial : Bool)
    (events : List SwarmEvent) :
    Except ConfigError (NodeState × List OutboundAction) :=
  match startup parsePeer parseAddr dial with
  | .error e => .error e
  | .ok _ => .ok (fleygRun initialNodeState events)

/-- The swarm events reaching the ident loop (ident.rs): the if-let keeps
only behaviour (identify) events; every other swarm event kind is skipped
and the loop continues. -/
inductive IdentSwarmEvent where
  | behaviour (e : IdentifyEvent)
  | nonBehaviour
deriving DecidableEq, Repr

/-- The log lines of the ident.rs Received arm. -/
def identReceivedLogs (peerId : PeerId) (info : IdInfo) : List String :=
  ["Identify Received: " ++ peerId,
   "\tProtocol: " ++ info.protocolVersion,
   "\tAgent: " ++ info.agentVersion,
   "\tAddr: " ++ info.observedAddr,
   "\tProtocols:"]
  ++ info.protocols.map (fun sp => "\t\t" ++ sp)

/-- The log lines of the ident.rs Pushed arm. -/
def identPushedLogs (peerId : PeerId) (info : IdInfo) : List String :=
  ["Identify Pushed: " ++ peerId,
   "\tProtocol: " ++ info.protocolVersion,
   "\tAgent: " ++ info.agentVersion,
   "\tAddr: " ++ info.observedAddr,
   "\tProtocols:"]
  ++ info.protocols.map (fun sp => "\t\t" ++ sp)

/-- One iteration of the ident.rs event loop (lines 67-101): every arm
only logs and the loop continues; no arm breaks (the break statements in
the source are commented out). -/
def identStep (e : IdentSwarmEvent) : List String × LoopControl :=
  match e with
  | .behaviour ev =>
    match ev with
    | .received peerId info => (identReceivedLogs peerId info, .cont)
    | .sent peerId => (["Identify Sent: " ++ peerId], .cont)
    | .pushed peerId info => (identPushedLogs peerId info, .cont)
    | .error peerId err => (["Identify Error: " ++ peerId ++ " - " ++ err], .cont)
  | .nonBehaviour => ([], .cont)

/-- Whether some finite event prefix makes the ident loop exit (reach the
code after the loop, where main would return Ok). -/
def identLoopExits : List IdentSwarmEvent → Bool
  | [] => false
  | e :: es =>
    match (identStep e).snd with
    | .halt => true
    | .cont => identLoopExits es

end Fleyg

namespace Fleyg

/-- Claim C5: the node configures the per-query DHT timeout to 300 seconds
(the spec default), via set_query_timeout(Duration::from_secs(5 * 60)). -/
theorem query_timeout_is_300s : fleygKademliaConfig.queryTimeoutSecs = 300 := rfl

/-- Claim C1: fleyg selects the FilterBoth record-filtering mode, under which
every record put, locally authored or relayed from a remote peer, passes
through the admission filter; moreover no available filtering mode treats
remote inserts differently from local inserts, so remote inserts can never
bypass a filter applied to local inserts. -/
theorem record_filtering_applies_to_all_sources :
    fleygKademliaConfig.recordFiltering = .FilterBoth
    ∧ (∀ s : RecordSource,
        fleygKademliaConfig.recordFiltering.appliesFilterTo s = true)
    ∧ (∀ (m : KademliaStoreInserts) (s₁ s₂ : RecordSource),
        m.appliesFilterTo s₁ = m.appliesFilterTo s₂) := by
  refine ⟨rfl, ?_, ?_⟩
  · intro s; cases s <;> rfl
  · intro m s₁ s₂; cases m <;> cases s₁ <;> cases s₂ <;> rfl

/-- Claim C2 counterexample: the record with key 01 and value 02 is well
within any reasonable size bounds, so the admission filter accepts it, yet
after the inbound put-record request is handled, a local get for its key
still returns nothing: the handler only logs the record and never inserts
it into the Record Store, refuting the claim that filter-accepted inbound
records are retained. -/
theorem inbound_put_not_retained_cex :
    specFilterAccepts 1024 1024 { key := [1], value := [2] } = true
    ∧ (fleygStep initialNodeState
        (putRecordEvt { key := [1], value := [2] })).state.store.get [1] = none := by
  exact ⟨rfl, rfl⟩

/-- Claim C2 amended: every inbound put-record request is surfaced to the
loop with the record (FilterBoth disables automatic storage), and the
handler leaves the node state unchanged — in particular it stores nothing,
so no inbound record is ever retained — emits no outbound action (no
response of any kind to the sender), and continues the loop. -/
theorem inbound_put_leaves_store_unchanged (st : NodeState) (record : Option Record) :
    (fleygStep st (.behaviour (.kademlia (.inboundRequest (.putRecord record))))).state = st
    ∧ (fleygStep st (.behaviour (.kademlia (.inboundRequest (.putRecord record))))).actions = []
    ∧ (fleygStep st (.behaviour (.kademlia (.inboundRequest (.putRecord record))))).control
        = .cont := by
  cases record <;> exact ⟨rfl, rfl, rfl⟩

/-- Claim C3 counterexample: a successful GetClosestPeers query result is
neither a shutdown request (the event alphabet matched by the loop has no
such event) nor an unrecoverable transport failure, yet dispatching it
terminates the loop (the break statement), refuting the claim that the
loop terminates only on shutdown or transport failure. -/
theorem loop_halt_on_query_completion_cex :
    (fleygStep initialNodeState (closestPeersOkEvt [])).control = .halt
    ∧ isTransportFailure (closestPeersOkEvt []) = false := by
  exact ⟨rfl, rfl⟩

/-- Claim C3 amended: the fleyg event-dispatch loop terminates exactly on a
completed GetClosestPeers query result (success or timeout); every other
event kind — transport failures and unrecognized events included — is
processed or ignored and the loop continues. -/
theorem loop_halts_iff_closest_peers_result (st : NodeState) (e : SwarmEvent) :
    (fleygStep st e).control = .halt ↔ isClosestPeersResult e = true := by
  cases e with
  | behaviour be =>
    cases be with
    | ping p => simp [fleygStep, isClosestPeersResult]
    | identify ie => cases ie <;> simp [fleygStep, isClosestPeersResult]
    | kademlia ke =>
      cases ke with
      | inboundRequest req =>
        cases req with
        | putRecord record =>
          cases record <;> simp [fleygStep, isClosestPeersResult, handlePutRecord]
        | findNode => simp [fleygStep, isClosestPeersResult]
        | getProvider => simp [fleygStep, isClosestPeersResult]
        | addProvider => simp [fleygStep, isClosestPeersResult]
        | getRecord => simp [fleygStep, isClosestPeersResult]
      | outboundQueryProgressed qr =>
        cases qr with
        | getClosestPeers res =>
          cases res <;> simp [fleygStep, isClosestPeersResult, handleGetClosestPeers]
        | otherQuery => simp [fleygStep, isClosestPeersResult]
      | routingUpdated => simp [fleygStep, isClosestPeersResult]
      | unroutablePeer => simp [fleygStep, isClosestPeersResult]
      | routablePeer => simp [fleygStep, isClosestPeersResult]
      | pendingRoutablePeer => simp [fleygStep, isClosestPeersResult]
  | listenerError => simp [fleygStep, isClosestPeersResult]
  | listenerClosed => simp [fleygStep, isClosestPeersResult]
  | outgoingConnectionError => simp [fleygStep, isClosestPeersResult]
  | incomingConnectionError => simp [fleygStep, isClosestPeersResult]
  | connectionEstablished p => simp [fleygStep, isClosestPeersResult]
  | connectionClosed p => simp [fleygStep, isClosestPeersResult]
  | newListenAddr a => simp [fleygStep, isClosestPeersResult]
  | dialing p => simp [fleygStep, isClosestPeersResult]

/-- Claim C4: when a GetClosestPeers query times out, the handler delivers
exactly the best-known candidate peers accumulated so far — every
accumulated peer is reported, in order, none discarded — and the loop
control equals that of the success case, i.e. the timeout is handled with
the same success shape rather than as a progress-discarding error; the
node state is untouched. -/
theorem timeout_delivers_partial_peers (st : NodeState) (peers : List PeerId) :
    (fleygStep st (closestPeersTimeoutEvt peers)).logs
        = "Query timed out..." :: peers.map closestPeerLog
    ∧ (fleygStep st (closestPeersTimeoutEvt peers)).control
        = (fleygStep st (closestPeersOkEvt peers)).control
    ∧ (fleygStep st (closestPeersTimeoutEvt peers)).state = st := by
  exact ⟨rfl, rfl, rfl⟩

/-- Claim C7 counterexample: on an Identify Received event whose payload
reports the address at which the peer observed the local node, the handler
logs that observed address but records no candidate external address and
emits no action: the add_external_address call is disabled in the source,
refuting the claim that the observed address is accepted. -/
theorem observed_addr_not_recorded_cex :
    (fleygStep initialNodeState
        (.behaviour (.identify (.received "QmPeer" sampleIdInfo)))).state.externalAddrs = []
    ∧ (fleygStep initialNodeState
        (.behaviour (.identify (.received "QmPeer" sampleIdInfo)))).actions = []
    ∧ (fleygStep initialNodeState
        (.behaviour (.identify (.received "QmPeer" sampleIdInfo)))).logs
      = ["Identify Received: QmPeer",
         "\tProtocol: ipfs/0.1.0",
         "\tAgent: fleyg/0.0.1",
         "\tObserved Addr: /ip4/1.2.3.4/tcp/4920",
         "\tProtocols:",
         "\t\t/ipfs/id/1.0.0"] := by
  exact ⟨rfl, rfl, rfl⟩

/-- Claim C7 amended: on receiving a peer's Identify description, the node
logs the reported data, including the observed address, but does not
accept the observed address as a candidate external address: the node
state (external addresses included) is unchanged and no outbound action is
emitted. -/
theorem identify_received_no_external_addr (st : NodeState) (pid : PeerId) (info : IdInfo) :
    (fleygStep st (.behaviour (.identify (.received pid info)))).state = st
    ∧ (fleygStep st (.behaviour (.identify (.received pid info)))).actions = []
    ∧ (fleygStep st (.behaviour (.identify (.received pid info)))).control = .cont := by
  exact ⟨rfl, rfl, rfl⟩

/-- Claim C8 counterexample: starting from a state whose routing table
holds the probed peer, after the third consecutive unanswered liveness
probe the peer is still in the routing table and no action — in particular
no connection close — has been emitted, refuting the claim that the third
failure removes the peer and closes its connection. -/
theorem ping_threshold_no_removal_cex :
    "QmVictim" ∈ (fleygRun
        { store := MemoryStore.empty, routingTable := ["QmVictim"], externalAddrs := [] }
        (List.replicate 3 (pingFailureEvt "QmVictim"))).fst.routingTable
    ∧ (fleygRun
        { store := MemoryStore.empty, routingTable := ["QmVictim"], externalAddrs := [] }
        (List.replicate 3 (pingFailureEvt "QmVictim"))).snd = [] := by
  refine ⟨?_, rfl⟩
  simp [fleygRun, fleygStep, pingFailureEvt, List.replicate]

/-- Claim C8 amended: the fleyg loop matches every ping event with a
wildcard arm that does nothing; no failure counter exists, and no number
of consecutive unanswered liveness probes changes the node state (the
probed peer is never removed from the routing table) or emits any action
(no connection is ever closed). -/
theorem ping_failures_never_remove_peer (st : NodeState) (p : PeerId) (n : Nat) :
    fleygRun st (List.replicate n (pingFailureEvt p)) = (st, []) := by
  induction n with
  | zero => rfl
  | succ n ih => simpa [List.replicate, fleygRun, fleygStep, pingFailureEvt] using ih

/-- Claim C6: in the setup trace of fleyg main, for either value of the
dial flag, every bootstrap add-address action precedes every dial call:
the fixed bootstrap identity+address pairs are seeded into the routing
table before any dialing occurs. -/
theorem bootstrap_added_before_dial (d : Bool)
    (i j : Fin (mainSetupTrace d).length)
    (hi : ((mainSetupTrace d).get i).isAddAddress = true)
    (hj : ((mainSetupTrace d).get j).isDialCall = true) :
    (i : Nat) < (j : Nat) := by
  cases d <;> revert i j <;> decide

/-- Witness for claim C6: with the dial flag set, position 0 of the trace
adds a bootstrap address, position 6 dials, and 0 is less than 6. -/
theorem bootstrap_added_before_dial_witness :
    ((⟨0, by decide⟩ : Fin (mainSetupTrace true).length) : Nat)
      < ((⟨6, by decide⟩ : Fin (mainSetupTrace true).length) : Nat) :=
  bootstrap_added_before_dial true ⟨0, by decide⟩ ⟨6, by decide⟩
    (by decide) (by decide)

/-- Helper: if some bootstrap peer string fails to parse, the bootstrap
address-insertion loop aborts with a configuration error. -/
theorem addBootAddresses_error_of_peer_failure
    (parsePeer : String → Option PeerId) (parseAddr : String → Option Multiaddr)
    (l : List String) (h : ∃ p ∈ l, parsePeer p = none) :
    ∃ e, addBootAddresses parsePeer parseAddr l = .error e := by
  induction l with
  | nil =>
    rcases h with ⟨p, hp, _⟩
    cases hp
  | cons q rest ih =>
    rcases h with ⟨p, hp, hfail⟩
    cases hpq : parsePeer q with
    | none => exact ⟨.invalidPeerId q, by simp [addBootAddresses, hpq]⟩
    | some pid =>
      cases hpa : parseAddr bootstrapAddr with
      | none =>
        exact ⟨.invalidMultiaddr bootstrapAddr, by simp [addBootAddresses, hpq, hpa]⟩
      | some a =>
        have hmem : p ∈ rest := by
          rcases List.mem_cons.mp hp with rfl | hmem
          · exact absurd hfail (by simp [hpq])
          · exact hmem
        rcases ih ⟨p, hmem, hfail⟩ with ⟨e, he⟩
        exact ⟨e, by simp [addBootAddresses, hpq, hpa, he]⟩

/-- Claim C9: an invalid bootstrap peer identity or an invalid listen
address makes startup fail with a fatal configuration error returned to
the caller, and the event loop never runs: the returned value is the same
error whatever events would have arrived, so no configuration error is
absorbed or deferred. -/
theorem config_error_fatal_before_loop
    (parsePeer : String → Option PeerId) (parseAddr : String → Option Multiaddr)
    (dial : Bool)
    (h : (∃ p ∈ BOOTNODES, parsePeer p = none) ∨ parseAddr listenAddrStr = none) :
    ∃ e, ∀ events, runMain parsePeer parseAddr dial events = .error e := by
  rcases h with hpeer | haddr
  · rcases addBootAddresses_error_of_peer_failure parsePeer parseAddr BOOTNODES hpeer
      with ⟨e, he⟩
    exact ⟨e, fun events => by simp [runMain, startup, he]⟩
  · cases hboot : addBootAddresses parsePeer parseAddr BOOTNODES with
    | error e => exact ⟨e, fun events => by simp [runMain, startup, hboot]⟩
    | ok added =>
      exact ⟨.invalidMultiaddr listenAddrStr, fun events => by
        simp [runMain, startup, hboot, haddr]⟩

/-- Witness for claim C9: with a peer parser that rejects everything and a
trivially succeeding address parser, startup fails fatally before the loop. -/
theorem config_error_fatal_before_loop_witness :
    ∃ e, ∀ events,
      runMain (fun _ => none) (fun s => some s) false events = .error e :=
  config_error_fatal_before_loop (fun _ => none) (fun s => some s) false
    (Or.inl ⟨"QmNnooDu7bfjPFoTZYxMNLWUQJyrVwtbZg5gBMjTezGAJN", by simp [BOOTNODES], rfl⟩)

/-- Claim C10: the ident.rs event loop never terminates normally: no
finite sequence of swarm events, Identify Received and Identify Error
included, makes the loop exit, so main never reaches the code after the
loop and never returns Ok after startup succeeds. -/
theorem ident_loop_never_exits (events : List IdentSwarmEvent) :
    identLoopExits events = false := by
  induction events with
  | nil => rfl
  | cons e es ih =>
    cases e with
    | behaviour ev => cases ev <;> simpa [identLoopExits, identStep] using ih
    | nonBehaviour => simpa [identLoopExits, identStep] using ih

end Fleyg
